import Mathlib

/-!
Shallow embedding of `src/video/vaapi.c` (mpv's VA-API surface core) and
verification of the specification's claims about it.

The VA-API backend (libva) is external to the repository; it is modelled as a
deterministic oracle (`Backend`) supplying the status/result of each backend
call, and every stateful operation additionally returns the list of backend
calls it issued (`List BCall`), so that claims about call counts and call
ordering can be stated and proved.

Machine integers (`uint32_t` fourccs, `VAStatus`, ids) are modelled as `Nat`;
none of the embedded code performs arithmetic on them, only equality tests,
so no overflow modelling is needed.
-/

set_option linter.unusedVariables false

namespace Vaapi

/-- `VA_STATUS_SUCCESS` from `va.h`. -/
def VA_STATUS_SUCCESS : Nat := 0

/-- `VA_INVALID_ID` from `va.h`: the sentinel for "no image / no surface". -/
def VA_INVALID_ID : Nat := 0xffffffff

/-! Fourcc codes, computed as in `VA_FOURCC(a,b,c,d) = a | b<<8 | c<<16 | d<<24`
with the ASCII codes of the four characters. -/

def VA_FOURCC_YV12 : Nat := 0x32315659
def VA_FOURCC_I420 : Nat := 0x30323449
def VA_FOURCC_IYUV : Nat := 0x56555949
def VA_FOURCC_NV12 : Nat := 0x3231564E
def VA_FOURCC_UYVY : Nat := 0x59565955
def VA_FOURCC_YUY2 : Nat := 0x32595559
def VA_FOURCC_RGBA : Nat := 0x41424752
def VA_FOURCC_RGBX : Nat := 0x58424752
def VA_FOURCC_BGRA : Nat := 0x41524742
def VA_FOURCC_BGRX : Nat := 0x58524742

/-- Modelled from the spec: the generic pixel-format enum (`enum mp_imgfmt`,
defined in `img_format.h`, which is not part of the sources). Only the
distinctness of the values and `IMGFMT_NONE = 0` matter to this file;
the concrete codes are arbitrary. -/
def IMGFMT_NONE : Nat := 0
def IMGFMT_420P : Nat := 1001
def IMGFMT_NV12 : Nat := 1002
def IMGFMT_UYVY : Nat := 1003
def IMGFMT_YUYV : Nat := 1004
def IMGFMT_RGBA : Nat := 1005
def IMGFMT_BGRA : Nat := 1006
def IMGFMT_VAAPI : Nat := 1007

/-- `struct fmtentry`: one row of the static translation table. -/
structure fmtentry where
  va : Nat
  mp : Nat
deriving DecidableEq, Repr

/-- The static table `va_to_imgfmt[]`, including its `{0, IMGFMT_NONE}`
sentinel row (the C loops stop at the first row with `va == 0`). -/
def va_to_imgfmt : List fmtentry :=
  [⟨VA_FOURCC_YV12, IMGFMT_420P⟩,
   ⟨VA_FOURCC_I420, IMGFMT_420P⟩,
   ⟨VA_FOURCC_IYUV, IMGFMT_420P⟩,
   ⟨VA_FOURCC_NV12, IMGFMT_NV12⟩,
   ⟨VA_FOURCC_UYVY, IMGFMT_UYVY⟩,
   ⟨VA_FOURCC_YUY2, IMGFMT_YUYV⟩,
   ⟨VA_FOURCC_RGBA, IMGFMT_RGBA⟩,
   ⟨VA_FOURCC_RGBX, IMGFMT_RGBA⟩,
   ⟨VA_FOURCC_BGRA, IMGFMT_BGRA⟩,
   ⟨VA_FOURCC_BGRX, IMGFMT_BGRA⟩,
   ⟨0, IMGFMT_NONE⟩]

/-- The scan loop of `va_fourcc_to_imgfmt`: walk the table until the
sentinel (`entry->va == 0`); return the first row matching the fourcc. -/
def va_fourcc_to_imgfmt_scan : List fmtentry → Nat → Nat
  | [], _ => IMGFMT_NONE
  | e :: rest, fourcc =>
    if e.va = 0 then IMGFMT_NONE
    else if e.va = fourcc then e.mp
    else va_fourcc_to_imgfmt_scan rest fourcc

/-- `va_fourcc_to_imgfmt` (vaapi.c:68). -/
def va_fourcc_to_imgfmt (fourcc : Nat) : Nat :=
  va_fourcc_to_imgfmt_scan va_to_imgfmt fourcc

/-- The scan loop of `va_fourcc_from_imgfmt`: walk the table until the
sentinel; return the fourcc of the first row matching the imgfmt
(first-match semantics), 0 on miss. -/
def va_fourcc_from_imgfmt_scan : List fmtentry → Nat → Nat
  | [], _ => 0
  | e :: rest, imgfmt =>
    if e.va = 0 then 0
    else if e.mp = imgfmt then e.va
    else va_fourcc_from_imgfmt_scan rest imgfmt

/-- `va_fourcc_from_imgfmt` (vaapi.c:77). -/
def va_fourcc_from_imgfmt (imgfmt : Nat) : Nat :=
  va_fourcc_from_imgfmt_scan va_to_imgfmt imgfmt

/-- `VAImageFormat` from `va.h`; the embedded code only ever reads its
`fourcc` field, so the other fields are omitted. -/
structure VAImageFormat where
  fourcc : Nat
deriving DecidableEq, Repr

/-- `struct va_image_formats` (vaapi.c:86): the capability registry;
`num` is the list length. -/
structure va_image_formats where
  entries : List VAImageFormat
deriving DecidableEq, Repr

/-- `va_image_format_from_imgfmt` (vaapi.c:149): `NULL` pointers become
`none`; the result is the first registry entry whose fourcc equals
`va_fourcc_from_imgfmt imgfmt`. -/
def va_image_format_from_imgfmt (formats : Option va_image_formats)
    (imgfmt : Nat) : Option VAImageFormat :=
  let fourcc := va_fourcc_from_imgfmt imgfmt
  match formats with
  | none => none
  | some fs =>
    if fs.entries.length = 0 ∨ fourcc = 0 then none
    else fs.entries.find? (fun e => e.fourcc == fourcc)

/-- `struct mp_vaapi_ctx` restricted to the field this file's code reads:
the capability-registry pointer (`NULL` before `va_get_formats` runs or
after it fails). -/
structure mp_vaapi_ctx where
  image_formats : Option va_image_formats
deriving DecidableEq, Repr

/-- `VAImage` from `va.h`, restricted to the fields the embedded code
reads: id, buffer handle, format, dimensions and plane layout. The
`pitches`/`offsets` arrays are modelled as total functions on the plane
index. -/
structure VAImage where
  image_id : Nat
  buf : Nat
  format : VAImageFormat
  width : Nat
  height : Nat
  num_planes : Nat
  pitches : Nat → Nat
  offsets : Nat → Nat

/-- The VA-API backend (libva), modelled as a deterministic oracle: each
field gives the status/result that the corresponding backend entry point
reports when called. `none` results model a non-`VA_STATUS_SUCCESS`
status. -/
structure Backend where
  /-- `vaInitialize` status. -/
  initStatus : Nat
  /-- `vaQueryImageFormats` status. -/
  queryStatus : Nat
  /-- formats written by `vaQueryImageFormats`; its returned count is the
  authoritative length (the `vaMaxNumImageFormats` bound only sizes the
  C buffer and is irrelevant to the model). -/
  queryResult : List VAImageFormat
  /-- `vaCreateSurfaces w h rt_format`: surface id, or failure. -/
  createSurfacesResult : Nat → Nat → Nat → Option Nat
  /-- `vaDeriveImage` on a surface id: derived image, or failure. -/
  deriveResult : Nat → Option VAImage
  /-- `vaCreateImage format w h`: created image, or failure. -/
  createImageResult : VAImageFormat → Nat → Nat → Option VAImage
  /-- `vaMapBuffer` on a buffer handle: base address of the mapping, or
  failure. -/
  mapResult : Nat → Option Nat
  /-- `vaUnmapBuffer` status. -/
  unmapStatus : Nat
  /-- `vaPutImage` status. -/
  putImageStatus : Nat
  /-- `vaGetImage` status. -/
  getImageStatus : Nat
  /-- `vaSyncSurface` status. -/
  syncStatus : Nat
  /-- `vaDestroyImage` status (the C code always ignores it). -/
  destroyImageStatus : Nat

/-- `va_get_formats` (vaapi.c:91): on query success, publish the queried
list on the context; on failure leave `ctx->image_formats` untouched
(`NULL`). Note the code stores the list even when it is empty. -/
def va_get_formats (b : Backend) (ctx : mp_vaapi_ctx) : mp_vaapi_ctx :=
  if b.queryStatus ≠ VA_STATUS_SUCCESS then ctx
  else { ctx with image_formats := some ⟨b.queryResult⟩ }

/-- `va_initialize` (vaapi.c:109): fail if `vaInitialize` fails; then run
`va_get_formats` and fail if `image_formats` was not populated. -/
def va_initialize (b : Backend) : Option mp_vaapi_ctx :=
  if b.initStatus ≠ VA_STATUS_SUCCESS then none
  else
    let res := va_get_formats b { image_formats := none }
    match res.image_formats with
    | none => none
    | some _ => some res

/-- Trace events. Constructors named after a `va*` entry point record that
this backend call was issued (with its interesting arguments); `copyImage`
records the CPU-side `mp_image_copy` into/out of a mapped view (not a
backend call), and `tryFmt` marks entry into `try_download` with the given
fourcc (instrumentation for stating attempt order, not a backend call). -/
inductive BCall where
  | deriveImage (surfaceId : Nat)
  | destroyImage (imageId : Nat)
  | createImage (fourcc w h : Nat)
  | putImage (surfaceId imageId : Nat)
  | getImage (surfaceId imageId : Nat)
  | mapBuffer (buf : Nat)
  | unmapBuffer (buf : Nat)
  | createSurfaces (w h : Nat)
  | destroySurfaces (surfaceId : Nat)
  | syncSurface (surfaceId : Nat)
  | copyImage (imageId : Nat)
  | tryFmt (fourcc : Nat)
deriving DecidableEq, Repr

/-- `struct va_surface` together with its `va_surface_priv`, flattened:
`ctx` stands for `p->ctx` (only its `image_formats` field is ever read),
`image` for `p->image`, `is_derived` for `p->is_derived`. The `display`
handle is subsumed by the `Backend` oracle parameter. -/
structure va_surface where
  id : Nat
  w : Nat
  h : Nat
  rt_format : Nat
  ctx : mp_vaapi_ctx
  image : VAImage
  is_derived : Bool

/-- The zero image installed by `alloc_surface` (`talloc_zero` plus
`image_id = buf = VA_INVALID_ID`). -/
def zeroVAImage : VAImage :=
  { image_id := VA_INVALID_ID, buf := VA_INVALID_ID, format := ⟨0⟩,
    width := 0, height := 0, num_planes := 0,
    pitches := fun _ => 0, offsets := fun _ => 0 }

/-- `alloc_surface` (vaapi.c:188), up to the surface record: one
`vaCreateSurfaces` call; on success the mapped-view state starts absent
(`image_id = buf = VA_INVALID_ID`) and `is_derived` false (`talloc_zero`).
The `mp_image` wrapper stashing (planes[0]/planes[3]) is outside the
model. -/
def alloc_surface (b : Backend) (ctx : mp_vaapi_ctx) (rt_format w h : Nat) :
    Option va_surface × List BCall :=
  match b.createSurfacesResult w h rt_format with
  | none => (none, [BCall.createSurfaces w h])
  | some id =>
    (some { id := id, w := w, h := h, rt_format := rt_format, ctx := ctx,
            image := zeroVAImage, is_derived := false },
     [BCall.createSurfaces w h])

/-- `va_surface_destroy` (vaapi.c:169): if the surface id is valid, first
release a live mapped view (`vaDestroyImage`, status ignored), then always
release the surface (`vaDestroySurfaces`). Returns the calls issued. -/
def va_surface_destroy (b : Backend) (s : va_surface) : List BCall :=
  if s.id ≠ VA_INVALID_ID then
    (if s.image.image_id ≠ VA_INVALID_ID
       then [BCall.destroyImage s.image.image_id] else [])
      ++ [BCall.destroySurfaces s.id]
  else []

/-- `va_surface_image_destroy` (vaapi.c:218): no-op without a live view;
otherwise destroy the view and reset `image_id` and `is_derived` in the
same step. -/
def va_surface_image_destroy (s : va_surface) : va_surface × List BCall :=
  if s.image.image_id = VA_INVALID_ID then (s, [])
  else
    ({ s with image := { s.image with image_id := VA_INVALID_ID },
              is_derived := false },
     [BCall.destroyImage s.image.image_id])

/-- The `vaCreateImage` tail of `va_surface_image_alloc`
(vaapi.c:251-259): reached when the derive path did not succeed
(`status != VA_STATUS_SUCCESS`); `p->image.image_id` has already been set
to `VA_INVALID_ID` by the caller. -/
def va_surface_image_alloc_fallback (b : Backend) (s : va_surface)
    (format : VAImageFormat) (tr : List BCall) :
    Option VAImage × va_surface × List BCall :=
  match b.createImageResult format s.w s.h with
  | some img =>
    (some img, { s with image := img },
     tr ++ [BCall.createImage format.fourcc s.w s.h])
  | none =>
    (none, { s with image := { s.image with image_id := VA_INVALID_ID } },
     tr ++ [BCall.createImage format.fourcc s.w s.h])

/-- `va_surface_image_alloc` (vaapi.c:228): cache hit if a live view with
the requested fourcc exists (no backend calls); otherwise destroy any
stale view, try `vaDeriveImage` (accepted only when the derived image's
fourcc and dimensions match the request exactly, in which case
`is_derived` is set), and fall back to `vaCreateImage` when the derive
path did not succeed. The C null-pointer guard on its arguments is not
representable and is dropped. -/
def va_surface_image_alloc (b : Backend) (surface : va_surface)
    (format : VAImageFormat) : Option VAImage × va_surface × List BCall :=
  if surface.image.image_id ≠ VA_INVALID_ID ∧
      surface.image.format.fourcc = format.fourcc then
    (some surface.image, surface, [])
  else
    let s1 := (va_surface_image_destroy surface).1
    let tr1 := (va_surface_image_destroy surface).2
    match b.deriveResult s1.id with
    | some img =>
      if img.format.fourcc = format.fourcc ∧
          img.width = s1.w ∧ img.height = s1.h then
        (some img, { s1 with image := img, is_derived := true },
         tr1 ++ [BCall.deriveImage s1.id])
      else
        va_surface_image_alloc_fallback b
          { s1 with image := { img with image_id := VA_INVALID_ID } } format
          (tr1 ++ [BCall.deriveImage s1.id, BCall.destroyImage img.image_id])
    | none =>
      va_surface_image_alloc_fallback b
        { s1 with image := { s1.image with image_id := VA_INVALID_ID } } format
        (tr1 ++ [BCall.deriveImage s1.id])

/-- The derive-success condition of `va_surface_image_alloc`: the backend
reports success and the derived image matches the requested fourcc and the
surface dimensions. -/
def deriveOk (b : Backend) (s : va_surface) (f : VAImageFormat) : Bool :=
  match b.deriveResult s.id with
  | some img =>
    decide (img.format.fourcc = f.fourcc ∧ img.width = s.w ∧ img.height = s.h)
  | none => false

/-- `struct mp_image`, restricted to the fields the embedded code touches:
format tag, dimensions and the per-plane stride/pointer tables
(pointers modelled as `Nat` addresses). -/
structure mp_image where
  imgfmt : Nat
  w : Nat
  h : Nat
  stride : Nat → Nat
  planes : Nat → Nat

/-- Modelled from the spec: `mp_image_alloc` / `mp_image_pool_get`
(external image abstraction) as far as `try_download` observes them — a
fresh destination image of the given format and size (plane contents are
abstract; allocation is assumed to succeed). The optional pool only
chooses the allocator and is not modelled. -/
def mp_image_alloc (imgfmt w h : Nat) : mp_image :=
  { imgfmt := imgfmt, w := w, h := h,
    stride := fun _ => 0, planes := fun _ => 0 }

/-- The plane-stride table `va_image_map` reads from the backend layout:
`mpi->stride[p] = image->pitches[p]` for `p < num_planes`, 0 otherwise
(`*mpi = {0}`). -/
def mapStride (image : VAImage) (p : Nat) : Nat :=
  if p < image.num_planes then image.pitches p else 0

/-- The plane-pointer table `va_image_map` reads from the backend layout:
`mpi->planes[p] = data + image->offsets[p]` for `p < num_planes`, 0
otherwise. -/
def mapPlane (data : Nat) (image : VAImage) (p : Nat) : Nat :=
  if p < image.num_planes then data + image.offsets p else 0

/-- The `MPSWAP` of entries 1 and 2 performed for `VA_FOURCC_YV12`. -/
def swap12 (f : Nat → Nat) : Nat → Nat :=
  fun p => if p = 1 then f 2 else if p = 2 then f 1 else f p

/-- `va_image_map` (vaapi.c:296): refuse formats outside the translation
table; `vaMapBuffer` the image's buffer; build the generic image from the
backend layout, swapping planes 1 and 2 exactly for `VA_FOURCC_YV12`. -/
def va_image_map (b : Backend) (image : VAImage) :
    Option mp_image × List BCall :=
  let imgfmt := va_fourcc_to_imgfmt image.format.fourcc
  if imgfmt = IMGFMT_NONE then (none, [])
  else
    match b.mapResult image.buf with
    | none => (none, [BCall.mapBuffer image.buf])
    | some data =>
      (some { imgfmt := imgfmt, w := image.width, h := image.height,
              stride := if image.format.fourcc = VA_FOURCC_YV12
                then swap12 (mapStride image) else mapStride image,
              planes := if image.format.fourcc = VA_FOURCC_YV12
                then swap12 (mapPlane data image) else mapPlane data image },
       [BCall.mapBuffer image.buf])

/-- `va_image_unmap` (vaapi.c:323): one `vaUnmapBuffer` call; true iff the
backend reports success. -/
def va_image_unmap (b : Backend) (image : VAImage) : Bool × List BCall :=
  (b.unmapStatus == VA_STATUS_SUCCESS, [BCall.unmapBuffer image.buf])

/-- `va_surface_upload` (vaapi.c:329): look up a registry descriptor for
the source image's format, ensure a mapped view for it, map it, copy the
source in, unmap (result ignored by the code), and — only when the view is
not derived — issue one `vaPutImage` commit whose failure fails the whole
upload. -/
def va_surface_upload (b : Backend) (s : va_surface) (mpi : mp_image) :
    Bool × va_surface × List BCall :=
  match va_image_format_from_imgfmt s.ctx.image_formats mpi.imgfmt with
  | none => (false, s, [])
  | some format =>
    match va_surface_image_alloc b s format with
    | (none, s1, tr1) => (false, s1, tr1)
    | (some _, s1, tr1) =>
      match va_image_map b s1.image with
      | (none, tr2) => (false, s1, tr1 ++ tr2)
      | (some _, tr2) =>
        let tr3 := tr2 ++ [BCall.copyImage s1.image.image_id]
            ++ (va_image_unmap b s1.image).2
        if s1.is_derived then (true, s1, tr1 ++ tr3)
        else
          let tr4 := tr3 ++ [BCall.putImage s1.id s1.image.image_id]
          if b.putImageStatus ≠ VA_STATUS_SUCCESS then (false, s1, tr1 ++ tr4)
          else (true, s1, tr1 ++ tr4)

/-- `try_download` (vaapi.c:370): refuse fourccs outside the translation
table; ensure a mapped view of the requested format; `vaGetImage` the
surface into it only when the view is not derived; map, copy out into a
fresh destination image, unmap. The leading `tryFmt` trace entry marks the
attempt. -/
def try_download (b : Backend) (s : va_surface) (format : VAImageFormat) :
    Option mp_image × va_surface × List BCall :=
  let mark := [BCall.tryFmt format.fourcc]
  let imgfmt := va_fourcc_to_imgfmt format.fourcc
  if imgfmt = IMGFMT_NONE then (none, s, mark)
  else
    match va_surface_image_alloc b s format with
    | (none, s1, tr1) => (none, s1, mark ++ tr1)
    | (some _, s1, tr1) =>
      let getCalls := if s1.is_derived then []
        else [BCall.getImage s1.id s1.image.image_id]
      if ¬s1.is_derived ∧ b.getImageStatus ≠ VA_STATUS_SUCCESS then
        (none, s1, mark ++ tr1 ++ getCalls)
      else
        match va_image_map b s1.image with
        | (none, tr2) => (none, s1, mark ++ tr1 ++ getCalls ++ tr2)
        | (some tmp, tr2) =>
          (some (mp_image_alloc imgfmt tmp.w tmp.h), s1,
           mark ++ tr1 ++ getCalls ++ tr2
             ++ [BCall.copyImage s1.image.image_id]
             ++ (va_image_unmap b s1.image).2)

/-- The fallback loop of `va_surface_download` (vaapi.c:423-428): attempt
each registry entry in order with `try_download`, returning the first
success, threading the surface state and accumulating the trace. -/
def downloadLoop (b : Backend) :
    va_surface → List VAImageFormat →
      Option mp_image × va_surface × List BCall
  | s, [] => (none, s, [])
  | s, f :: rest =>
    match try_download b s f with
    | (some m, s1, tr1) => (some m, s1, tr1)
    | (none, s1, tr1) =>
      let lp := downloadLoop b s1 rest
      (lp.1, lp.2.1, tr1 ++ lp.2.2)

/-- `va_surface_download` (vaapi.c:407): block on `vaSyncSurface` (failure
aborts); if a cached view exists, try its format first; otherwise, or when
the fast path fails, run the registry fallback loop. The C code
dereferences `ctx->image_formats` unconditionally in the loop; a `none`
registry is modelled as the empty list. -/
def va_surface_download (b : Backend) (s : va_surface) :
    Option mp_image × va_surface × List BCall :=
  if b.syncStatus ≠ VA_STATUS_SUCCESS then (none, s, [BCall.syncSurface s.id])
  else
    let fmts := match s.ctx.image_formats with
      | some fs => fs.entries
      | none => []
    let fast := if s.image.image_id ≠ VA_INVALID_ID
      then try_download b s s.image.format
      else (none, s, [])
    match fast with
    | (some m, s1, tr1) => (some m, s1, BCall.syncSurface s.id :: tr1)
    | (none, s1, tr1) =>
      let lp := downloadLoop b s1 fmts
      (lp.1, lp.2.1, BCall.syncSurface s.id :: (tr1 ++ lp.2.2))

/-- Recognizer for `vaPutImage` trace entries. -/
def isPutImage : BCall → Bool
  | BCall.putImage _ _ => true
  | _ => false

/-- Recognizer for `vaGetImage` trace entries. -/
def isGetImage : BCall → Bool
  | BCall.getImage _ _ => true
  | _ => false

/-- The fourcc of a `tryFmt` marker, `none` for every other event. -/
def tryFmtVal : BCall → Option Nat
  | BCall.tryFmt c => some c
  | _ => none

/-- The sequence of download attempts recorded in a trace: the fourccs of
its `tryFmt` markers, in order. -/
def tryFmts (tr : List BCall) : List Nat := tr.filterMap tryFmtVal

/-- The format order `va_surface_download` is supposed to attempt, given
the surface's cached-view state and the registry: the cached view's format
(when a cached view exists) followed by the registry entries in discovery
order. -/
def attemptOrder (s : va_surface) (fs : va_image_formats) : List Nat :=
  (if s.image.image_id ≠ VA_INVALID_ID then [s.image.format.fourcc] else [])
    ++ fs.entries.map (fun e => e.fourcc)

/-- The per-surface invariant of claim C9: `is_derived` is set only while
a live mapped view exists. -/
def surfaceInv (s : va_surface) : Prop :=
  s.is_derived = true → s.image.image_id ≠ VA_INVALID_ID

/-- Backend sanity assumption for claim C9: when `vaDeriveImage` reports
success, the image it hands out carries a valid id (the id is the
backend's own live handle, so `VA_INVALID_ID` on success would be a
backend bug, not a client state). -/
def backendWF (b : Backend) : Prop :=
  ∀ id img, b.deriveResult id = some img → img.image_id ≠ VA_INVALID_ID

/-! Concrete fixtures used by counterexamples and witnesses. -/

def fmtNV12 : VAImageFormat := ⟨VA_FOURCC_NV12⟩

def fmtYV12 : VAImageFormat := ⟨VA_FOURCC_YV12⟩

def imgNV12 : VAImage :=
  { image_id := 5, buf := 6, format := fmtNV12, width := 64, height := 32,
    num_planes := 2, pitches := fun p => 64 + p, offsets := fun p => 100 * p }

def imgYV12 : VAImage :=
  { image_id := 11, buf := 12, format := fmtYV12, width := 16, height := 16,
    num_planes := 3, pitches := fun p => 10 + p, offsets := fun p => 50 * p }

def ctxW : mp_vaapi_ctx := { image_formats := some ⟨[fmtNV12]⟩ }

/-- A backend oracle on which every call succeeds (`vaDeriveImage`
excepted, which fails, forcing the `vaCreateImage` fallback). -/
def okBackend : Backend :=
  { initStatus := 0, queryStatus := 0, queryResult := [fmtNV12],
    createSurfacesResult := fun _ _ _ => some 7,
    deriveResult := fun _ => none,
    createImageResult := fun f w h =>
      some { image_id := 42, buf := 9, format := f, width := w, height := h,
             num_planes := 2, pitches := fun _ => 64, offsets := fun _ => 0 },
    mapResult := fun _ => some 1000,
    unmapStatus := 0, putImageStatus := 0, getImageStatus := 0,
    syncStatus := 0, destroyImageStatus := 1 }

def sCache : va_surface :=
  { id := 3, w := 64, h := 32, rt_format := 1, ctx := ctxW,
    image := imgNV12, is_derived := true }

def sNoView : va_surface :=
  { id := 3, w := 64, h := 32, rt_format := 1, ctx := ctxW,
    image := zeroVAImage, is_derived := false }

def mpiNV12 : mp_image :=
  { imgfmt := IMGFMT_NV12, w := 64, h := 32,
    stride := fun _ => 0, planes := fun _ => 0 }

/-- The image produced by mapping `imgYV12` on `okBackend` (witness
fixture). -/
def mpiY : mp_image :=
  (va_image_map okBackend imgYV12).1.getD (mp_image_alloc 0 0 0)

/-- The trace produced by mapping `imgYV12` on `okBackend` (witness
fixture). -/
def trY : List BCall := (va_image_map okBackend imgYV12).2

/-- A backend on which `vaMapBuffer` always fails, so every download
attempt fails (witness fixture). -/
def bFail : Backend := { okBackend with mapResult := fun _ => none }

/-! Theorems. -/

/-- Table coherence: when the reverse lookup finds a fourcc for a generic
format, the forward lookup maps that fourcc back to the same generic
format (the table's `va` column has no duplicates). -/
theorem va_fourcc_from_to (imgfmt : Nat)
    (h : va_fourcc_from_imgfmt imgfmt ≠ 0) :
    va_fourcc_to_imgfmt (va_fourcc_from_imgfmt imgfmt) = imgfmt := by
  by_cases h1 : imgfmt = IMGFMT_420P
  · subst h1; decide
  by_cases h2 : imgfmt = IMGFMT_NV12
  · subst h2; decide
  by_cases h3 : imgfmt = IMGFMT_UYVY
  · subst h3; decide
  by_cases h4 : imgfmt = IMGFMT_YUYV
  · subst h4; decide
  by_cases h5 : imgfmt = IMGFMT_RGBA
  · subst h5; decide
  by_cases h6 : imgfmt = IMGFMT_BGRA
  · subst h6; decide
  exfalso
  apply h
  simp only [IMGFMT_420P, IMGFMT_NV12, IMGFMT_UYVY, IMGFMT_YUYV,
    IMGFMT_RGBA, IMGFMT_BGRA] at h1 h2 h3 h4 h5 h6
  simp only [va_fourcc_from_imgfmt, va_to_imgfmt, va_fourcc_from_imgfmt_scan,
    VA_FOURCC_YV12, VA_FOURCC_I420, VA_FOURCC_IYUV, VA_FOURCC_NV12,
    VA_FOURCC_UYVY, VA_FOURCC_YUY2, VA_FOURCC_RGBA, VA_FOURCC_RGBX,
    VA_FOURCC_BGRA, VA_FOURCC_BGRX,
    IMGFMT_420P, IMGFMT_NV12, IMGFMT_UYVY, IMGFMT_YUYV, IMGFMT_RGBA,
    IMGFMT_BGRA]
  split_ifs <;> omega

/-- C1 (counterexample): `IMGFMT_420P` has the advertised native
counterpart `I420` in the registry `[I420]` (the table maps `I420` to
`IMGFMT_420P`), yet the descriptor lookup returns none, because the
reverse table lookup picks the first-matching fourcc `YV12`, which the
registry does not advertise. -/
theorem c1_counterexample :
    va_fourcc_to_imgfmt VA_FOURCC_I420 = IMGFMT_420P ∧
    va_image_format_from_imgfmt (some ⟨[⟨VA_FOURCC_I420⟩]⟩) IMGFMT_420P
      = none :=
  ⟨by decide, by decide⟩

/-- C1 (amended): `va_image_format_from_imgfmt` over a registry returns a
non-none descriptor exactly when the first-matching native identifier for
the generic format (`va_fourcc_from_imgfmt`, nonzero) is advertised in the
registry; and for every generic format with no advertised counterpart in
the registry at all, it returns none. -/
theorem c1_lookupDescriptor (fs : va_image_formats) (imgfmt : Nat) :
    ((va_image_format_from_imgfmt (some fs) imgfmt).isSome ↔
      va_fourcc_from_imgfmt imgfmt ≠ 0 ∧
        ∃ e ∈ fs.entries, e.fourcc = va_fourcc_from_imgfmt imgfmt) ∧
    ((∀ e ∈ fs.entries, va_fourcc_to_imgfmt e.fourcc ≠ imgfmt) →
      va_image_format_from_imgfmt (some fs) imgfmt = none) := by
  constructor
  · simp only [va_image_format_from_imgfmt]
    by_cases h0 : va_fourcc_from_imgfmt imgfmt = 0
    · simp [h0]
    · by_cases hlen : fs.entries.length = 0
      · rw [List.length_eq_zero] at hlen
        simp [h0, hlen]
      · simp [h0, hlen, List.find?_isSome]
  · intro hno
    by_cases h0 : va_fourcc_from_imgfmt imgfmt = 0
    · simp [va_image_format_from_imgfmt, h0]
    · simp only [va_image_format_from_imgfmt]
      rcases hfind : fs.entries.find? (fun e => e.fourcc == va_fourcc_from_imgfmt imgfmt) with _ | e
      · simp [hfind]
      · exfalso
        have hmem := List.mem_of_find?_eq_some hfind
        have heq : e.fourcc = va_fourcc_from_imgfmt imgfmt := by
          have := List.find?_some hfind
          simpa using this
        exact hno e hmem (heq ▸ va_fourcc_from_to imgfmt h0)

/-- C1 (witness for the amended theorem): with registry `[YV12]` the
lookup for `IMGFMT_420P` succeeds, and with registry `[NV12]` the lookup
for `IMGFMT_UYVY` (no counterpart advertised) returns none. -/
theorem c1_lookupDescriptor_witness :
    (va_image_format_from_imgfmt (some ⟨[⟨VA_FOURCC_YV12⟩]⟩) IMGFMT_420P).isSome
      ∧ va_image_format_from_imgfmt (some ⟨[⟨VA_FOURCC_NV12⟩]⟩) IMGFMT_UYVY
        = none := by
  constructor
  · exact (c1_lookupDescriptor ⟨[⟨VA_FOURCC_YV12⟩]⟩ IMGFMT_420P).1.mpr
      (by decide)
  · exact (c1_lookupDescriptor ⟨[⟨VA_FOURCC_NV12⟩]⟩ IMGFMT_UYVY).2 (by decide)

/-- C2 (counterexample): with `vaInitialize` and `vaQueryImageFormats`
both succeeding but the discovered format list empty, `va_initialize`
still returns a usable context (carrying an empty registry), contradicting
the claim that an empty discovered list is a context-creation failure. -/
theorem c2_counterexample :
    ({ okBackend with queryResult := [] } : Backend).queryResult = [] ∧
    va_initialize { okBackend with queryResult := [] }
      = some { image_formats := some ⟨[]⟩ } :=
  ⟨by decide, by decide⟩

/-- C2 (amended): `va_initialize` returns no context exactly when
`vaInitialize` or `vaQueryImageFormats` reports a non-success status; an
empty discovered format list is not a failure. Whenever a context is
returned it carries the queried registry (so callers never see a context
in any failure case). -/
theorem c2_context_creation (b : Backend) :
    ( va_initialize b = none ↔
      (b.initStatus ≠ VA_STATUS_SUCCESS ∨ b.queryStatus ≠ VA_STATUS_SUCCESS))
    ∧ (∀ ctx, va_initialize b = some ctx →
        ctx.image_formats = some ⟨b.queryResult⟩) := by
  constructor
  · simp only [ va_initialize, va_get_formats]
    by_cases h1 : b.initStatus ≠ VA_STATUS_SUCCESS
    · simp [h1]
    · by_cases h2 : b.queryStatus ≠ VA_STATUS_SUCCESS <;> simp [h1, h2]
  · intro ctx hctx
    simp only [ va_initialize, va_get_formats] at hctx
    by_cases h1 : b.initStatus ≠ VA_STATUS_SUCCESS
    · simp [h1] at hctx
    · by_cases h2 : b.queryStatus ≠ VA_STATUS_SUCCESS
      all_goals simp [h1, h2] at hctx
      all_goals simp [← hctx]

/-- C2 (witness for the amended theorem): a backend whose `vaInitialize`
reports failure yields no context. -/
theorem c2_context_creation_witness :
    va_initialize { okBackend with initStatus := 1 } = none :=
  (c2_context_creation { okBackend with initStatus := 1 }).1.mpr
    (Or.inl (by decide))

/-- C3: on a surface whose cached mapped view exists (`image_id` valid)
and whose view fourcc equals the requested descriptor's fourcc, a repeated
`va_surface_image_alloc` with that descriptor returns the existing view
unchanged, leaves the surface unchanged, and issues zero backend calls
(empty trace: no derive, no destroy, no create). -/
theorem c3_ensureMappedView_cache_hit (b : Backend) (s : va_surface)
    (f : VAImageFormat)
    (h1 : s.image.image_id ≠ VA_INVALID_ID)
    (h2 : s.image.format.fourcc = f.fourcc) :
    va_surface_image_alloc b s f = (some s.image, s, []) := by
  simp [va_surface_image_alloc, h1, h2]

/-- C3 (witness): the cache-hit equation at a concrete surface holding an
NV12 view, requesting NV12 again. -/
theorem c3_ensureMappedView_cache_hit_witness :
    va_surface_image_alloc okBackend sCache fmtNV12
      = (some sCache.image, sCache, []) :=
  c3_ensureMappedView_cache_hit okBackend sCache fmtNV12 (by decide) rfl

/-- `va_surface_image_destroy` never leaves `is_derived` set, given the
surface invariant (live view whenever `is_derived`). -/
theorem va_surface_image_destroy_not_derived (s : va_surface)
    (hinv : surfaceInv s) :
    (va_surface_image_destroy s).1.is_derived = false := by
  unfold va_surface_image_destroy
  split_ifs with h
  · cases hd : s.is_derived
    · rfl
    · exact absurd h (hinv hd)
  · rfl

/-- `va_surface_image_destroy` always results in an absent view. -/
theorem va_surface_image_destroy_image_id (s : va_surface) :
    (va_surface_image_destroy s).1.image.image_id = VA_INVALID_ID := by
  unfold va_surface_image_destroy
  split_ifs with h
  · exact h
  · rfl

/-- `va_surface_image_destroy` does not touch the surface handle,
its dimensions or its context. -/
theorem va_surface_image_destroy_fields (s : va_surface) :
    (va_surface_image_destroy s).1.id = s.id ∧
    (va_surface_image_destroy s).1.w = s.w ∧
    (va_surface_image_destroy s).1.h = s.h ∧
    (va_surface_image_destroy s).1.ctx = s.ctx := by
  unfold va_surface_image_destroy
  split_ifs <;> exact ⟨rfl, rfl, rfl, rfl⟩

/-- The `vaCreateImage` fallback fails exactly when the backend's create
call fails, and never touches `is_derived`. -/
theorem va_surface_image_alloc_fallback_spec (b : Backend) (s : va_surface)
    (f : VAImageFormat) (tr : List BCall) :
    ((va_surface_image_alloc_fallback b s f tr).1 = none ↔
      b.createImageResult f s.w s.h = none) ∧
    (va_surface_image_alloc_fallback b s f tr).2.1.is_derived
      = s.is_derived := by
  unfold va_surface_image_alloc_fallback
  rcases b.createImageResult f s.w s.h with _ | img <;> simp

/-- Characterization of `va_surface_image_alloc` on a cache miss: failure
exactly when derive did not succeed and create failed; `is_derived`
records the path taken; and on a successful derive the stored image is
the derived one. -/
theorem alloc_miss_spec (b : Backend) (s : va_surface) (f : VAImageFormat)
    (hmiss : ¬(s.image.image_id ≠ VA_INVALID_ID ∧
      s.image.format.fourcc = f.fourcc))
    (hinv : surfaceInv s) :
    ((va_surface_image_alloc b s f).1 = none ↔
      deriveOk b s f = false ∧ b.createImageResult f s.w s.h = none) ∧
    (va_surface_image_alloc b s f).2.1.is_derived = deriveOk b s f ∧
    (∀ img, b.deriveResult s.id = some img → deriveOk b s f = true →
      (va_surface_image_alloc b s f).2.1.image = img) := by
  obtain ⟨hid, hw, hh, hctx⟩ := va_surface_image_destroy_fields s
  have hnd := va_surface_image_destroy_not_derived s hinv
  simp only [va_surface_image_alloc, if_neg hmiss]
  rcases hd : b.deriveResult (va_surface_image_destroy s).1.id with _ | img
  · rw [hid] at hd
    have hok : deriveOk b s f = false := by simp [deriveOk, hd]
    rw [hok]
    simp only [va_surface_image_alloc_fallback, hw, hh]
    rcases hc : b.createImageResult f s.w s.h with _ | cimg <;>
      simp [hc, hnd, hd]
  · rw [hid] at hd
    by_cases hm : img.format.fourcc = f.fourcc ∧
        img.width = (va_surface_image_destroy s).1.w ∧
        img.height = (va_surface_image_destroy s).1.h
    · simp only [hw, hh] at hm
      have hok : deriveOk b s f = true := by
        simp only [deriveOk, hd]
        simp [hm.1, hm.2.1, hm.2.2]
      rw [hok]
      simp [hm, hw, hh, hd]
    · simp only [hw, hh] at hm
      have hok : deriveOk b s f = false := by
        simp only [deriveOk, hd]
        simpa using hm
      rw [hok]
      simp only [va_surface_image_alloc_fallback, hw, hh]
      rcases hc : b.createImageResult f s.w s.h with _ | cimg <;>
        simp [hc, hnd, hm, hd]

/-- C4: on a cache miss (so the derive path actually runs) over a surface
satisfying the `is_derived` invariant, `va_surface_image_alloc` returns
none exactly when the derive path did not succeed (backend failure, or a
fourcc/width/height mismatch, i.e. `deriveOk` false) *and* the independent
`vaCreateImage` allocation also fails; a derive failure alone is never
propagated as an error. The surface's `is_derived` flag records exactly
which path was taken (true for the derive path, false for the independent
allocation), in particular on every successful call. -/
theorem c4_derive_fallback (b : Backend) (s : va_surface) (f : VAImageFormat)
    (hmiss : ¬(s.image.image_id ≠ VA_INVALID_ID ∧
      s.image.format.fourcc = f.fourcc))
    (hinv : surfaceInv s) :
    ((va_surface_image_alloc b s f).1 = none ↔
      deriveOk b s f = false ∧ b.createImageResult f s.w s.h = none) ∧
    (va_surface_image_alloc b s f).2.1.is_derived = deriveOk b s f :=
  ⟨(alloc_miss_spec b s f hmiss hinv).1, (alloc_miss_spec b s f hmiss hinv).2.1⟩

/-- C4 (witness): a backend whose derive always fails and whose create
also fails yields none for the concrete cache-miss surface. -/
theorem c4_derive_fallback_witness :
    (va_surface_image_alloc
      { okBackend with createImageResult := fun _ _ _ => none }
      sNoView fmtNV12).1 = none :=
  (c4_derive_fallback { okBackend with createImageResult := fun _ _ _ => none }
      sNoView fmtNV12 (by decide)
      (fun h => absurd h (by decide))).1.mpr ⟨rfl, rfl⟩

/-- C8: destroying a surface with a valid id and a live mapped view issues
exactly the view-release call followed by the surface-release call, in
that order; and since the backend `b` (including its ignored
`vaDestroyImage` status) is arbitrary, the surface release happens
regardless of the view-release outcome. -/
theorem c8_destroy_ordering (b : Backend) (s : va_surface)
    (h1 : s.id ≠ VA_INVALID_ID) (h2 : s.image.image_id ≠ VA_INVALID_ID) :
    va_surface_destroy b s =
      [BCall.destroyImage s.image.image_id, BCall.destroySurfaces s.id] := by
  simp [va_surface_destroy, h1, h2]

/-- C8 (witness): the destruction trace at a concrete surface, under a
backend whose `vaDestroyImage` reports failure. -/
theorem c8_destroy_ordering_witness :
    va_surface_destroy { okBackend with destroyImageStatus := 99 } sCache
      = [BCall.destroyImage sCache.image.image_id,
         BCall.destroySurfaces sCache.id] :=
  c8_destroy_ordering { okBackend with destroyImageStatus := 99 } sCache
    (by decide) (by decide)

/-- A surface whose `is_derived` flag is clear satisfies the invariant
vacuously. -/
theorem surfaceInv_of_not_derived (s : va_surface)
    (h : s.is_derived = false) : surfaceInv s := by
  intro htrue
  rw [h] at htrue
  exact absurd htrue (by simp)

/-- `va_surface_image_destroy` preserves the invariant. -/
theorem surfaceInv_destroy (s : va_surface) (hinv : surfaceInv s) :
    surfaceInv (va_surface_image_destroy s).1 :=
  surfaceInv_of_not_derived _ (va_surface_image_destroy_not_derived s hinv)

/-- `va_surface_image_alloc` preserves the invariant, for a backend whose
derive reports valid handles on success. -/
theorem surfaceInv_alloc (b : Backend) (s : va_surface) (f : VAImageFormat)
    (hwf : backendWF b) (hinv : surfaceInv s) :
    surfaceInv (va_surface_image_alloc b s f).2.1 := by
  by_cases hcache : s.image.image_id ≠ VA_INVALID_ID ∧
      s.image.format.fourcc = f.fourcc
  · have hs : (va_surface_image_alloc b s f).2.1 = s := by
      simp [va_surface_image_alloc, hcache]
    rw [hs]
    exact hinv
  · obtain ⟨-, hder, himg⟩ := alloc_miss_spec b s f hcache hinv
    cases hok : deriveOk b s f
    · exact surfaceInv_of_not_derived _ (by rw [hder, hok])
    · have hex : ∃ img, b.deriveResult s.id = some img := by
        rcases hdr : b.deriveResult s.id with _ | i
        · simp only [deriveOk, hdr] at hok
          exact absurd hok (by simp)
        · exact ⟨i, rfl⟩
      obtain ⟨img, hd⟩ := hex
      intro _
      rw [himg img hd hok]
      exact hwf _ img hd

/-- `va_surface_upload` preserves the invariant. -/
theorem surfaceInv_upload (b : Backend) (s : va_surface) (mpi : mp_image)
    (hwf : backendWF b) (hinv : surfaceInv s) :
    surfaceInv (va_surface_upload b s mpi).2.1 := by
  unfold va_surface_upload
  split
  · exact hinv
  · rename_i format hf
    split
    · rename_i s1 tr1 ha
      have h2 := surfaceInv_alloc b s format hwf hinv
      rw [ha] at h2
      exact h2
    · rename_i v s1 tr1 ha
      have hs1 : surfaceInv s1 := by
        have h2 := surfaceInv_alloc b s format hwf hinv
        rw [ha] at h2
        exact h2
      split
      · exact hs1
      · split_ifs <;> exact hs1

/-- `try_download` preserves the invariant. -/
theorem surfaceInv_try_download (b : Backend) (s : va_surface)
    (f : VAImageFormat) (hwf : backendWF b) (hinv : surfaceInv s) :
    surfaceInv (try_download b s f).2.1 := by
  unfold try_download
  dsimp only
  by_cases h0 : va_fourcc_to_imgfmt f.fourcc = IMGFMT_NONE
  · rw [if_pos h0]
    exact hinv
  · rw [if_neg h0]
    split
    · rename_i s1 tr1 ha
      have h2 := surfaceInv_alloc b s f hwf hinv
      rw [ha] at h2
      exact h2
    · rename_i v s1 tr1 ha
      have hs1 : surfaceInv s1 := by
        have h2 := surfaceInv_alloc b s f hwf hinv
        rw [ha] at h2
        exact h2
      split
      · exact hs1
      · split
        · exact hs1
        · exact hs1

/-- The download fallback loop preserves the invariant. -/
theorem surfaceInv_downloadLoop (b : Backend) (fmts : List VAImageFormat) :
    ∀ s : va_surface, backendWF b → surfaceInv s →
      surfaceInv (downloadLoop b s fmts).2.1 := by
  induction fmts with
  | nil => intro s hwf hinv; exact hinv
  | cons f rest ih =>
    intro s hwf hinv
    simp only [downloadLoop]
    rcases ht : try_download b s f with ⟨res, s1, tr1⟩
    have hs1 : surfaceInv s1 := by
      have h2 := surfaceInv_try_download b s f hwf hinv
      rw [ht] at h2
      exact h2
    rcases res with _ | m
    · exact ih s1 hwf hs1
    · exact hs1

/-- `va_surface_download` preserves the invariant. -/
theorem surfaceInv_download (b : Backend) (s : va_surface)
    (hwf : backendWF b) (hinv : surfaceInv s) :
    surfaceInv (va_surface_download b s).2.1 := by
  unfold va_surface_download
  by_cases hsync : b.syncStatus ≠ VA_STATUS_SUCCESS
  · rw [if_pos hsync]
    exact hinv
  · rw [if_neg hsync]
    dsimp only
    by_cases hcv : s.image.image_id ≠ VA_INVALID_ID
    · rw [if_pos hcv]
      rcases ht : try_download b s s.image.format with ⟨res, s1, tr1⟩
      have hs1 : surfaceInv s1 := by
        have h2 := surfaceInv_try_download b s s.image.format hwf hinv
        rw [ht] at h2
        exact h2
      rcases res with _ | m
      · exact surfaceInv_downloadLoop b _ s1 hwf hs1
      · exact hs1
    · rw [if_neg hcv]
      exact surfaceInv_downloadLoop b _ s hwf hinv

/-- C9: the `is_derived` flag is set only while a live mapped view exists
(`surfaceInv`), across every operation: `alloc_surface` initializes the
flag false with the view absent; `va_surface_image_destroy` clears the
flag in the same step as the view (and preserves the invariant);
`va_surface_image_alloc`, `va_surface_upload` and `va_surface_download`
preserve the invariant (for a backend whose successful derive results
carry valid ids). -/
theorem c9_is_derived_invariant :
    (∀ b ctx rt w h s tr, alloc_surface b ctx rt w h = (some s, tr) →
      s.is_derived = false ∧ s.image.image_id = VA_INVALID_ID) ∧
    (∀ s, surfaceInv s →
      (va_surface_image_destroy s).1.is_derived = false ∧
      surfaceInv (va_surface_image_destroy s).1) ∧
    (∀ b s f, backendWF b → surfaceInv s →
      surfaceInv (va_surface_image_alloc b s f).2.1) ∧
    (∀ b s mpi, backendWF b → surfaceInv s →
      surfaceInv (va_surface_upload b s mpi).2.1) ∧
    (∀ b s, backendWF b → surfaceInv s →
      surfaceInv (va_surface_download b s).2.1) := by
  refine ⟨?_, ?_, surfaceInv_alloc, surfaceInv_upload, surfaceInv_download⟩
  · intro b ctx rt w h s tr heq
    rcases hcr : b.createSurfacesResult w h rt with _ | id <;>
      simp only [alloc_surface, hcr, Prod.mk.injEq, Option.some.injEq,
        reduceCtorEq, false_and] at heq
    obtain ⟨hs, -⟩ := heq
    rw [← hs]
    exact ⟨rfl, rfl⟩
  · intro s hinv
    exact ⟨va_surface_image_destroy_not_derived s hinv,
      surfaceInv_destroy s hinv⟩

/-- C9 (witness): the destroy conjunct applied at a concrete surface with
a live derived view. -/
theorem c9_is_derived_invariant_witness :
    (va_surface_image_destroy sCache).1.is_derived = false ∧
      surfaceInv (va_surface_image_destroy sCache).1 :=
  c9_is_derived_invariant.2.1 sCache (fun _ => by decide)

/-- C7: a successful `va_image_map` returns plane pointers and strides
taken from the backend layout (`pitches`/`offsets` over the mapped base
address) unmodified for every format except `VA_FOURCC_YV12`, for which
exactly planes 1 and 2 have their pointer+stride pairs swapped relative to
the backend layout. -/
theorem c7_yv12_plane_swap (b : Backend) (image : VAImage) (mpi : mp_image)
    (tr : List BCall) (data : Nat)
    (hdata : b.mapResult image.buf = some data)
    (hmap : va_image_map b image = (some mpi, tr)) :
    (image.format.fourcc = VA_FOURCC_YV12 →
      mpi.stride 1 = mapStride image 2 ∧ mpi.stride 2 = mapStride image 1 ∧
      mpi.planes 1 = mapPlane data image 2 ∧
      mpi.planes 2 = mapPlane data image 1 ∧
      ∀ p, p ≠ 1 → p ≠ 2 →
        mpi.stride p = mapStride image p ∧
        mpi.planes p = mapPlane data image p) ∧
    (image.format.fourcc ≠ VA_FOURCC_YV12 →
      ∀ p, mpi.stride p = mapStride image p ∧
        mpi.planes p = mapPlane data image p) := by
  unfold va_image_map at hmap
  dsimp only at hmap
  by_cases h0 : va_fourcc_to_imgfmt image.format.fourcc = IMGFMT_NONE
  · rw [if_pos h0] at hmap
    simp at hmap
  · rw [if_neg h0, hdata] at hmap
    simp only [Prod.mk.injEq, Option.some.injEq] at hmap
    obtain ⟨hmpi, -⟩ := hmap
    subst hmpi
    constructor
    · intro hyv
      refine ⟨by simp [hyv, swap12], by simp [hyv, swap12],
        by simp [hyv, swap12], by simp [hyv, swap12], ?_⟩
      intro p hp1 hp2
      constructor
      · simp [hyv, swap12, hp1, hp2]
      · simp [hyv, swap12, hp1, hp2]
    · intro hnyv p
      constructor
      · simp [hnyv]
      · simp [hnyv]

/-- C7 (witness): mapping a concrete YV12 image swaps the chroma planes:
plane 1's stride comes from pitch 2 and plane 2's pointer from offset 1. -/
theorem c7_yv12_plane_swap_witness :
    imgYV12.format.fourcc = VA_FOURCC_YV12 ∧
    mpiY.stride 1 = mapStride imgYV12 2 ∧
    mpiY.planes 2 = mapPlane 1000 imgYV12 1 := by
  have h := c7_yv12_plane_swap okBackend imgYV12 mpiY trY 1000 rfl rfl
  have hy := h.1 (by decide)
  exact ⟨by decide, hy.1, hy.2.2.2.1⟩

/-- A successful `va_image_map` issues exactly one `vaMapBuffer` call. -/
theorem va_image_map_some_trace (b : Backend) (image : VAImage)
    (mi : mp_image) (tr : List BCall)
    (h : va_image_map b image = (some mi, tr)) :
    tr = [BCall.mapBuffer image.buf] := by
  unfold va_image_map at h
  dsimp only at h
  by_cases h0 : va_fourcc_to_imgfmt image.format.fourcc = IMGFMT_NONE
  · rw [if_pos h0] at h
    simp at h
  · rw [if_neg h0] at h
    rcases hd : b.mapResult image.buf with _ | data <;> rw [hd] at h
    · simp at h
    · simp only [Prod.mk.injEq] at h
      exact h.2.symm

/-- `va_image_map` never issues `vaGetImage`/`vaPutImage` and carries no
`tryFmt` marker. -/
theorem map_trace_clean (b : Backend) (image : VAImage) :
    (va_image_map b image).2.countP isGetImage = 0 ∧
    (va_image_map b image).2.countP isPutImage = 0 ∧
    tryFmts (va_image_map b image).2 = [] := by
  unfold va_image_map
  dsimp only
  by_cases h0 : va_fourcc_to_imgfmt image.format.fourcc = IMGFMT_NONE
  · simp [h0, tryFmts]
  · rcases hd : b.mapResult image.buf with _ | data <;>
      simp [h0, hd, tryFmts, tryFmtVal, isGetImage, isPutImage]

/-- `va_surface_image_destroy` never issues `vaGetImage`/`vaPutImage` and
carries no `tryFmt` marker. -/
theorem destroy_trace_clean (s : va_surface) :
    (va_surface_image_destroy s).2.countP isGetImage = 0 ∧
    (va_surface_image_destroy s).2.countP isPutImage = 0 ∧
    tryFmts (va_surface_image_destroy s).2 = [] := by
  unfold va_surface_image_destroy
  split_ifs <;> simp [tryFmts, tryFmtVal, isGetImage, isPutImage]

/-- `va_surface_image_alloc` never issues `vaGetImage`/`vaPutImage` and
carries no `tryFmt` marker (its trace holds only derive/destroy/create
calls). -/
theorem alloc_trace_clean (b : Backend) (s : va_surface) (f : VAImageFormat) :
    (va_surface_image_alloc b s f).2.2.countP isGetImage = 0 ∧
    (va_surface_image_alloc b s f).2.2.countP isPutImage = 0 ∧
    tryFmts (va_surface_image_alloc b s f).2.2 = [] := by
  obtain ⟨hd1, hd2, hd3⟩ := destroy_trace_clean s
  unfold tryFmts at hd3
  unfold va_surface_image_alloc va_surface_image_alloc_fallback
  by_cases hcache : s.image.image_id ≠ VA_INVALID_ID ∧
      s.image.format.fourcc = f.fourcc
  · rw [if_pos hcache]
    simp [tryFmts]
  · rw [if_neg hcache]
    dsimp only
    rcases hd : b.deriveResult (va_surface_image_destroy s).1.id with _ | img
    · rcases hc : b.createImageResult f (va_surface_image_destroy s).1.w
          (va_surface_image_destroy s).1.h with _ | cimg <;>
        simp [hd, hc, tryFmts, tryFmtVal, isGetImage, isPutImage,
          List.countP_append, hd1, hd2, hd3, -List.filterMap_eq_nil_iff]
    · by_cases hm : img.format.fourcc = f.fourcc ∧
          img.width = (va_surface_image_destroy s).1.w ∧
          img.height = (va_surface_image_destroy s).1.h
      · simp [hd, hm, tryFmts, tryFmtVal, isGetImage, isPutImage,
          List.countP_append, hd1, hd2, hd3, -List.filterMap_eq_nil_iff]
      · rcases hc : b.createImageResult f (va_surface_image_destroy s).1.w
            (va_surface_image_destroy s).1.h with _ | cimg <;>
          simp [hd, hm, hc, tryFmts, tryFmtVal, isGetImage, isPutImage,
            List.countP_append, hd1, hd2, hd3, -List.filterMap_eq_nil_iff]

/-- C5: an upload that reaches the copy stage (format descriptor found,
view ensured, map succeeded) runs map/copy/unmap and then issues exactly
one `vaPutImage` commit if and only if the view is not derived (zero
commits for a derived view); the upload's result is success exactly when
the view is derived or the commit status is success, and the copy event
stays in the trace even when the commit fails (no rollback). -/
theorem c5_upload_commit (b : Backend) (s : va_surface) (mpi : mp_image)
    (f : VAImageFormat) (v : VAImage) (s1 : va_surface) (tr1 : List BCall)
    (hf : va_image_format_from_imgfmt s.ctx.image_formats mpi.imgfmt = some f)
    (ha : va_surface_image_alloc b s f = (some v, s1, tr1))
    (hm : (va_image_map b s1.image).1.isSome) :
    va_surface_upload b s mpi =
      ((s1.is_derived || decide (b.putImageStatus = VA_STATUS_SUCCESS)), s1,
       tr1 ++ [BCall.mapBuffer s1.image.buf,
               BCall.copyImage s1.image.image_id,
               BCall.unmapBuffer s1.image.buf]
         ++ (if s1.is_derived = true then []
             else [BCall.putImage s1.id s1.image.image_id])) ∧
    (va_surface_upload b s mpi).2.2.countP isPutImage
      = (if s1.is_derived = true then 0 else 1) := by
  obtain ⟨mi, tr2, hmp⟩ : ∃ mi tr2, va_image_map b s1.image = (some mi, tr2) := by
    rcases hq : va_image_map b s1.image with ⟨mres, tr2⟩
    rcases mres with _ | mi
    · rw [hq] at hm
      simp at hm
    · exact ⟨mi, tr2, rfl⟩
  have htr2 := va_image_map_some_trace b s1.image mi tr2 hmp
  subst htr2
  have hclean : tr1.countP isPutImage = 0 := by
    have h2 := (alloc_trace_clean b s f).2.1
    rw [ha] at h2
    exact h2
  have heq : va_surface_upload b s mpi =
      ((s1.is_derived || decide (b.putImageStatus = VA_STATUS_SUCCESS)), s1,
       tr1 ++ [BCall.mapBuffer s1.image.buf,
               BCall.copyImage s1.image.image_id,
               BCall.unmapBuffer s1.image.buf]
         ++ (if s1.is_derived = true then []
             else [BCall.putImage s1.id s1.image.image_id])) := by
    unfold va_surface_upload
    split
    · rename_i hnone
      rw [hnone] at hf
      simp at hf
    · rename_i f2 hf2
      rw [hf] at hf2
      simp only [Option.some.injEq] at hf2
      subst hf2
      split
      · rename_i s1' tr1' ha'
        rw [ha] at ha'
        simp at ha'
      · rename_i v' s1' tr1' ha'
        rw [ha] at ha'
        simp only [Prod.mk.injEq, Option.some.injEq] at ha'
        obtain ⟨hv, hs1, htr1⟩ := ha'
        subst hv
        subst hs1
        subst htr1
        split
        · rename_i tr2' hmp'
          rw [hmp] at hmp'
          simp at hmp'
        · rename_i mi' tr2' hmp'
          rw [hmp] at hmp'
          simp only [Prod.mk.injEq, Option.some.injEq] at hmp'
          obtain ⟨hmi, htr2⟩ := hmp'
          subst hmi
          subst htr2
          by_cases hder : s1.is_derived = true
          · simp [hder, va_image_unmap]
          · by_cases hput : b.putImageStatus ≠ VA_STATUS_SUCCESS
            · simp [hder, hput, va_image_unmap]
            · simp [hder, not_not.mp hput, va_image_unmap]
  refine ⟨heq, ?_⟩
  rw [heq]
  by_cases hder : s1.is_derived = true <;>
    simp [hder, List.countP_append, List.countP_cons, hclean, isPutImage]

/-- C5 (witness): uploading into a concrete surface with a derived cached
NV12 view performs map/copy/unmap with no commit call. -/
theorem c5_upload_commit_witness :
    va_surface_upload okBackend sCache mpiNV12 =
      ((sCache.is_derived
          || decide (okBackend.putImageStatus = VA_STATUS_SUCCESS)), sCache,
       [] ++ [BCall.mapBuffer sCache.image.buf,
              BCall.copyImage sCache.image.image_id,
              BCall.unmapBuffer sCache.image.buf]
         ++ (if sCache.is_derived = true then []
             else [BCall.putImage sCache.id sCache.image.image_id])) ∧
    (va_surface_upload okBackend sCache mpiNV12).2.2.countP isPutImage
      = (if sCache.is_derived = true then 0 else 1) :=
  c5_upload_commit okBackend sCache mpiNV12 fmtNV12 sCache.image sCache []
    (by decide) rfl rfl

/-- C10: in a download attempt that gets past the fourcc check and the
view allocation, the `vaGetImage` read-back is issued exactly once when
the ensured view is not derived, and not at all when it is derived (the
data is then taken from the mapped derived view directly). -/
theorem c10_derived_skips_getimage (b : Backend) (s : va_surface)
    (f : VAImageFormat) (v : VAImage) (s1 : va_surface) (tr1 : List BCall)
    (hfmt : va_fourcc_to_imgfmt f.fourcc ≠ IMGFMT_NONE)
    (ha : va_surface_image_alloc b s f = (some v, s1, tr1)) :
    (try_download b s f).2.2.countP isGetImage
      = (if s1.is_derived = true then 0 else 1) := by
  have hclean : tr1.countP isGetImage = 0 := by
    have h2 := (alloc_trace_clean b s f).1
    rw [ha] at h2
    exact h2
  unfold try_download
  dsimp only
  rw [if_neg hfmt]
  split
  · rename_i s1' tr1' ha'
    rw [ha] at ha'
    simp at ha'
  · rename_i v' s1' tr1' ha'
    rw [ha] at ha'
    simp only [Prod.mk.injEq, Option.some.injEq] at ha'
    obtain ⟨hv, hs1, htr⟩ := ha'
    subst hv
    subst hs1
    subst htr
    rcases hmp : va_image_map b s1.image with ⟨mres, tr2⟩
    have hm2 : tr2.countP isGetImage = 0 := by
      have h3 := (map_trace_clean b s1.image).1
      rw [hmp] at h3
      exact h3
    by_cases hder : s1.is_derived = true
    · rw [if_neg (by simp [hder])]
      rcases mres with _ | mi <;>
        simp [hder, List.countP_append, hclean, hm2, isGetImage,
          va_image_unmap]
    · by_cases hget : b.getImageStatus ≠ VA_STATUS_SUCCESS
      · rw [if_pos ⟨hder, hget⟩]
        simp [hder, List.countP_append, hclean, isGetImage]
      · rw [if_neg (fun hco => hget hco.2)]
        rcases mres with _ | mi <;>
          simp [hder, List.countP_append, hclean, hm2, isGetImage,
            va_image_unmap]

/-- C10 (witness): a download attempt on a concrete surface with a
derived cached NV12 view issues zero `vaGetImage` calls. -/
theorem c10_derived_skips_getimage_witness :
    (try_download okBackend sCache fmtNV12).2.2.countP isGetImage
      = (if sCache.is_derived = true then 0 else 1) :=
  c10_derived_skips_getimage okBackend sCache fmtNV12 sCache.image sCache []
    (by decide) rfl

/-- `tryFmts` distributes over trace concatenation. -/
theorem tryFmts_append (l1 l2 : List BCall) :
    tryFmts (l1 ++ l2) = tryFmts l1 ++ tryFmts l2 := by
  simp [tryFmts]

/-- A leading `vaSyncSurface` event carries no attempt marker. -/
theorem tryFmts_cons_sync (i : Nat) (l : List BCall) :
    tryFmts (BCall.syncSurface i :: l) = tryFmts l := by
  simp [tryFmts, tryFmtVal]

/-- Every `try_download` call records exactly one attempt marker: its own
format, whatever the outcome. -/
theorem try_download_tryFmts (b : Backend) (s : va_surface)
    (f : VAImageFormat) :
    tryFmts (try_download b s f).2.2 = [f.fourcc] := by
  unfold try_download
  dsimp only
  by_cases h0 : va_fourcc_to_imgfmt f.fourcc = IMGFMT_NONE
  · rw [if_pos h0]
    simp [tryFmts, tryFmtVal]
  · rw [if_neg h0]
    split
    · rename_i s1 tr1 ha
      have h1 : tryFmts tr1 = [] := by
        have h2 := (alloc_trace_clean b s f).2.2
        rw [ha] at h2
        exact h2
      rw [tryFmts_append, h1]
      simp [tryFmts, tryFmtVal]
    · rename_i v s1 tr1 ha
      have h1 : tryFmts tr1 = [] := by
        have h2 := (alloc_trace_clean b s f).2.2
        rw [ha] at h2
        exact h2
      have hgc : tryFmts (if s1.is_derived = true then ([] : List BCall)
          else [BCall.getImage s1.id s1.image.image_id]) = [] := by
        split_ifs <;> simp [tryFmts, tryFmtVal]
      split
      · rw [tryFmts_append, tryFmts_append, h1, hgc]
        simp [tryFmts, tryFmtVal]
      · rcases hmp : va_image_map b s1.image with ⟨mres, tr2⟩
        have h3 : tryFmts tr2 = [] := by
          have h4 := (map_trace_clean b s1.image).2.2
          rw [hmp] at h4
          exact h4
        rcases mres with _ | mi
        · rw [tryFmts_append, tryFmts_append, tryFmts_append, h1, hgc, h3]
          simp [tryFmts, tryFmtVal]
        · rw [tryFmts_append, tryFmts_append, tryFmts_append, tryFmts_append,
            tryFmts_append, h1, hgc, h3]
          simp [tryFmts, tryFmtVal, va_image_unmap]

/-- A successful `try_download` returns an image of the generic format
corresponding to the requested fourcc. -/
theorem try_download_some_imgfmt (b : Backend) (s : va_surface)
    (f : VAImageFormat) (m : mp_image) (s' : va_surface) (tr : List BCall)
    (h : try_download b s f = (some m, s', tr)) :
    m.imgfmt = va_fourcc_to_imgfmt f.fourcc := by
  unfold try_download at h
  dsimp only at h
  by_cases h0 : va_fourcc_to_imgfmt f.fourcc = IMGFMT_NONE
  · rw [if_pos h0] at h
    simp at h
  · rw [if_neg h0] at h
    split at h
    · simp at h
    · split at h
      · simp at h
      · split at h
        · simp at h
        · rename_i mi tr2 hmp
          simp only [Prod.mk.injEq, Option.some.injEq] at h
          obtain ⟨h1, -, -⟩ := h
          rw [← h1]
          simp [mp_image_alloc]

/-- If the download fallback loop fails, it has attempted every format of
its list, in order. -/
theorem downloadLoop_none_tryFmts (b : Backend) :
    ∀ (fmts : List VAImageFormat) (s s' : va_surface) (tr : List BCall),
      downloadLoop b s fmts = (none, s', tr) →
      tryFmts tr = fmts.map (fun e => e.fourcc) := by
  intro fmts
  induction fmts with
  | nil =>
    intro s s' tr h
    simp only [downloadLoop, Prod.mk.injEq] at h
    rw [← h.2.2]
    simp [tryFmts]
  | cons f rest ih =>
    intro s s' tr h
    simp only [downloadLoop] at h
    rcases ht : try_download b s f with ⟨res, s1, tr1⟩
    rw [ht] at h
    have htf : tryFmts tr1 = [f.fourcc] := by
      have h2 := try_download_tryFmts b s f
      rw [ht] at h2
      exact h2
    rcases res with _ | m
    · dsimp only at h
      rcases hlp : downloadLoop b s1 rest with ⟨lres, s2, tr2⟩
      rw [hlp] at h
      dsimp only at h
      simp only [Prod.mk.injEq] at h
      obtain ⟨h1, h2, h3⟩ := h
      rw [h1] at hlp
      rw [← h3, tryFmts_append, htf, ih s1 s2 tr2 hlp]
      simp
    · simp at h

/-- If the download fallback loop succeeds, the attempts recorded are a
prefix of the list's formats in order, the last attempt determines the
returned image's format, and nothing past the successful entry is
attempted. -/
theorem downloadLoop_some_spec (b : Backend) :
    ∀ (fmts : List VAImageFormat) (s : va_surface) (m : mp_image)
      (s' : va_surface) (tr : List BCall),
      downloadLoop b s fmts = (some m, s', tr) →
      (∃ rest2, tryFmts tr ++ rest2 = fmts.map (fun e => e.fourcc)) ∧
      (∃ pre c, tryFmts tr = pre ++ [c] ∧
        m.imgfmt = va_fourcc_to_imgfmt c) := by
  intro fmts
  induction fmts with
  | nil =>
    intro s m s' tr h
    simp [downloadLoop] at h
  | cons f rest ih =>
    intro s m s' tr h
    simp only [downloadLoop] at h
    rcases ht : try_download b s f with ⟨res, s1, tr1⟩
    rw [ht] at h
    have htf : tryFmts tr1 = [f.fourcc] := by
      have h2 := try_download_tryFmts b s f
      rw [ht] at h2
      exact h2
    rcases res with _ | m1
    · dsimp only at h
      rcases hlp : downloadLoop b s1 rest with ⟨lres, s2, tr2⟩
      rw [hlp] at h
      dsimp only at h
      simp only [Prod.mk.injEq] at h
      obtain ⟨h1, h2, h3⟩ := h
      rw [h1] at hlp
      obtain ⟨⟨rest2, hpre⟩, ⟨pre, c, hc1, hc2⟩⟩ := ih s1 m s2 tr2 hlp
      constructor
      · refine ⟨rest2, ?_⟩
        rw [← h3, tryFmts_append, htf]
        simp [List.append_assoc, hpre]
      · refine ⟨f.fourcc :: pre, c, ?_, hc2⟩
        rw [← h3, tryFmts_append, htf, hc1]
        simp
    · simp only [Prod.mk.injEq, Option.some.injEq] at h
      obtain ⟨h1, h2, h3⟩ := h
      constructor
      · refine ⟨rest.map (fun e => e.fourcc), ?_⟩
        rw [← h3, htf]
        simp
      · refine ⟨[], f.fourcc, by rw [← h3, htf]; rfl, ?_⟩
        rw [← h1]
        exact try_download_some_imgfmt b s f m1 s1 tr1 ht

/-- C6: after a successful synchronization, `va_surface_download` tries
the cached view's format first (when a cached view exists) and then the
registry entries in discovery order: when it returns none it has attempted
exactly the whole `attemptOrder` sequence (every registry entry failed);
when it returns an image, the attempts are a prefix of `attemptOrder`
(no entry beyond the first success is attempted) and the last, successful
attempt determines the returned image's format. -/
theorem c6_download_search (b : Backend) (s : va_surface)
    (fs : va_image_formats)
    (hsync : b.syncStatus = VA_STATUS_SUCCESS)
    (hfmts : s.ctx.image_formats = some fs) :
    (∀ s' tr, va_surface_download b s = (none, s', tr) →
      tryFmts tr = attemptOrder s fs) ∧
    (∀ m s' tr, va_surface_download b s = (some m, s', tr) →
      (∃ rest2, tryFmts tr ++ rest2 = attemptOrder s fs) ∧
      (∃ pre c, tryFmts tr = pre ++ [c] ∧
        m.imgfmt = va_fourcc_to_imgfmt c)) := by
  unfold va_surface_download
  rw [if_neg (by simp [hsync])]
  dsimp only
  rw [hfmts]
  dsimp only
  by_cases hcv : s.image.image_id ≠ VA_INVALID_ID
  · rw [if_pos hcv]
    have hAO : attemptOrder s fs
        = s.image.format.fourcc :: fs.entries.map (fun e => e.fourcc) := by
      simp [attemptOrder, hcv]
    rcases ht : try_download b s s.image.format with ⟨res, s1, tr1⟩
    have htf : tryFmts tr1 = [s.image.format.fourcc] := by
      have h2 := try_download_tryFmts b s s.image.format
      rw [ht] at h2
      exact h2
    rcases res with _ | m1
    · dsimp only
      rcases hlp : downloadLoop b s1 fs.entries with ⟨lres, s2, tr2⟩
      dsimp only
      constructor
      · intro s' tr h
        simp only [Prod.mk.injEq] at h
        obtain ⟨h1, h2, h3⟩ := h
        rw [h1] at hlp
        rw [← h3, tryFmts_cons_sync, tryFmts_append, htf,
          downloadLoop_none_tryFmts b fs.entries s1 s2 tr2 hlp, hAO]
        simp
      · intro m s' tr h
        simp only [Prod.mk.injEq] at h
        obtain ⟨h1, h2, h3⟩ := h
        rw [h1] at hlp
        obtain ⟨⟨rest2, hpre⟩, ⟨pre, c, hc1, hc2⟩⟩ :=
          downloadLoop_some_spec b fs.entries s1 m s2 tr2 hlp
        constructor
        · refine ⟨rest2, ?_⟩
          rw [← h3, tryFmts_cons_sync, tryFmts_append, htf, hAO]
          simp [List.append_assoc, hpre]
        · refine ⟨s.image.format.fourcc :: pre, c, ?_, hc2⟩
          rw [← h3, tryFmts_cons_sync, tryFmts_append, htf, hc1]
          simp
    · dsimp only
      constructor
      · intro s' tr h
        simp at h
      · intro m s' tr h
        simp only [Prod.mk.injEq, Option.some.injEq] at h
        obtain ⟨h1, h2, h3⟩ := h
        constructor
        · refine ⟨fs.entries.map (fun e => e.fourcc), ?_⟩
          rw [← h3, tryFmts_cons_sync, htf, hAO]
          simp
        · refine ⟨[], s.image.format.fourcc,
            by rw [← h3, tryFmts_cons_sync, htf]; rfl, ?_⟩
          rw [← h1]
          exact try_download_some_imgfmt b s s.image.format m1 s1 tr1 ht
  · rw [if_neg hcv]
    dsimp only
    have hAO : attemptOrder s fs = fs.entries.map (fun e => e.fourcc) := by
      simp [attemptOrder, hcv]
    rcases hlp : downloadLoop b s fs.entries with ⟨lres, s2, tr2⟩
    dsimp only
    constructor
    · intro s' tr h
      simp only [Prod.mk.injEq] at h
      obtain ⟨h1, h2, h3⟩ := h
      rw [h1] at hlp
      rw [← h3, tryFmts_cons_sync, List.nil_append,
        downloadLoop_none_tryFmts b fs.entries s s2 tr2 hlp, hAO]
    · intro m s' tr h
      simp only [Prod.mk.injEq] at h
      obtain ⟨h1, h2, h3⟩ := h
      rw [h1] at hlp
      obtain ⟨⟨rest2, hpre⟩, ⟨pre, c, hc1, hc2⟩⟩ :=
        downloadLoop_some_spec b fs.entries s m s2 tr2 hlp
      constructor
      · refine ⟨rest2, ?_⟩
        rw [← h3, tryFmts_cons_sync, List.nil_append, hAO]
        exact hpre
      · refine ⟨pre, c, ?_, hc2⟩
        rw [← h3, tryFmts_cons_sync, List.nil_append]
        exact hc1

/-- C6 (witness): on a backend where every map fails, a download over the
one-entry registry attempts exactly the whole attempt order and fails. -/
theorem c6_download_search_witness :
    tryFmts (va_surface_download bFail sNoView).2.2
      = attemptOrder sNoView ⟨[fmtNV12]⟩ :=
  (c6_download_search bFail sNoView ⟨[fmtNV12]⟩ rfl rfl).1
    (va_surface_download bFail sNoView).2.1
    (va_surface_download bFail sNoView).2.2 rfl

end Vaapi
